import Mathlib

/-!
Verification of the particle-simulation engine of the
ThreeJS hand-gesture-controlled particle repository.

The engine lives in `src/lib/optimized-particle-system.ts` (class
`OptimizedParticleSystem`), with a stricter needle-sphere variant of the
same class in the unnamed source file `src/unnamed/part_001`.  Particle
state is three-dimensional real vectors manipulated through the THREE.js
`Vector3` API; we embed exactly the `Vector3` operations the engine uses,
with THREE.js semantics (in particular `normalize` divides by
`length() || 1`, so the zero vector normalizes to itself).

The per-frame `update(deltaTime)` methods mutate each particle in place;
we embed them as pure per-particle state transformers.  The ambient
inputs the code reads (`this.handControls`, `performance.now()`,
`Math.random()`) become explicit parameters: the control snapshot, the
clock value in seconds, and the random draws consumed during the tick.
-/

open Real

set_option linter.unusedVariables false

/-- Shallow embedding of `THREE.Vector3`: three real components. -/
structure Vec3 where
  x : ℝ
  y : ℝ
  z : ℝ

namespace Vec3

@[ext] theorem ext_comp {a b : Vec3} (hx : a.x = b.x) (hy : a.y = b.y) (hz : a.z = b.z) :
    a = b := by
  cases a; cases b; simp_all

/-- Vector3.set(0,0,0) / the zero vector. -/
def zero : Vec3 := ⟨0, 0, 0⟩

/-- Vector3.add. -/
def add (a b : Vec3) : Vec3 := ⟨a.x + b.x, a.y + b.y, a.z + b.z⟩

/-- Vector3.sub. -/
def sub (a b : Vec3) : Vec3 := ⟨a.x - b.x, a.y - b.y, a.z - b.z⟩

/-- Vector3.multiplyScalar. -/
def multiplyScalar (a : Vec3) (s : ℝ) : Vec3 := ⟨a.x * s, a.y * s, a.z * s⟩

/-- Vector3.dot. -/
def dot (a b : Vec3) : ℝ := a.x * b.x + a.y * b.y + a.z * b.z

/-- Vector3.lengthSq: `x*x + y*y + z*z`. -/
def lengthSq (a : Vec3) : ℝ := a.x * a.x + a.y * a.y + a.z * a.z

/-- Vector3.length: `sqrt(x*x + y*y + z*z)`. -/
noncomputable def length (a : Vec3) : ℝ := Real.sqrt a.lengthSq

/-- Vector3.distanceTo. -/
noncomputable def distanceTo (a b : Vec3) : ℝ := (a.sub b).length

/-- Vector3.crossVectors. -/
def cross (a b : Vec3) : Vec3 :=
  ⟨a.y * b.z - a.z * b.y, a.z * b.x - a.x * b.z, a.x * b.y - a.y * b.x⟩

/-- Vector3.lerp: `this + (v - this) * alpha`, componentwise. -/
def lerp (a b : Vec3) (t : ℝ) : Vec3 :=
  ⟨a.x + (b.x - a.x) * t, a.y + (b.y - a.y) * t, a.z + (b.z - a.z) * t⟩

/-- Vector3.divideScalar: multiply by the scalar's inverse. -/
noncomputable def divideScalar (a : Vec3) (s : ℝ) : Vec3 := a.multiplyScalar (1 / s)

/-- Vector3.normalize: `divideScalar(length() || 1)`; the zero vector is
returned unchanged rather than producing NaN components. -/
noncomputable def normalize (a : Vec3) : Vec3 :=
  a.divideScalar (if a.length = 0 then 1 else a.length)

@[simp] theorem zero_x : zero.x = 0 := rfl
@[simp] theorem zero_y : zero.y = 0 := rfl
@[simp] theorem zero_z : zero.z = 0 := rfl
@[simp] theorem add_x (a b : Vec3) : (a.add b).x = a.x + b.x := rfl
@[simp] theorem add_y (a b : Vec3) : (a.add b).y = a.y + b.y := rfl
@[simp] theorem add_z (a b : Vec3) : (a.add b).z = a.z + b.z := rfl
@[simp] theorem sub_x (a b : Vec3) : (a.sub b).x = a.x - b.x := rfl
@[simp] theorem sub_y (a b : Vec3) : (a.sub b).y = a.y - b.y := rfl
@[simp] theorem sub_z (a b : Vec3) : (a.sub b).z = a.z - b.z := rfl
@[simp] theorem multiplyScalar_x (a : Vec3) (s : ℝ) : (a.multiplyScalar s).x = a.x * s := rfl
@[simp] theorem multiplyScalar_y (a : Vec3) (s : ℝ) : (a.multiplyScalar s).y = a.y * s := rfl
@[simp] theorem multiplyScalar_z (a : Vec3) (s : ℝ) : (a.multiplyScalar s).z = a.z * s := rfl
@[simp] theorem cross_x (a b : Vec3) : (a.cross b).x = a.y * b.z - a.z * b.y := rfl
@[simp] theorem cross_y (a b : Vec3) : (a.cross b).y = a.z * b.x - a.x * b.z := rfl
@[simp] theorem cross_z (a b : Vec3) : (a.cross b).z = a.x * b.y - a.y * b.x := rfl
@[simp] theorem lerp_x (a b : Vec3) (t : ℝ) : (a.lerp b t).x = a.x + (b.x - a.x) * t := rfl
@[simp] theorem lerp_y (a b : Vec3) (t : ℝ) : (a.lerp b t).y = a.y + (b.y - a.y) * t := rfl
@[simp] theorem lerp_z (a b : Vec3) (t : ℝ) : (a.lerp b t).z = a.z + (b.z - a.z) * t := rfl

theorem dot_def (a b : Vec3) : a.dot b = a.x * b.x + a.y * b.y + a.z * b.z := rfl

theorem lengthSq_eq_dot (a : Vec3) : a.lengthSq = a.dot a := by
  simp [lengthSq, dot]

theorem lengthSq_nonneg (a : Vec3) : 0 ≤ a.lengthSq := by
  have hx : 0 ≤ a.x * a.x := mul_self_nonneg _
  have hy : 0 ≤ a.y * a.y := mul_self_nonneg _
  have hz : 0 ≤ a.z * a.z := mul_self_nonneg _
  simp only [lengthSq]; linarith

theorem length_nonneg (a : Vec3) : 0 ≤ a.length := Real.sqrt_nonneg _

theorem length_sq_eq (a : Vec3) : a.length * a.length = a.lengthSq := by
  simpa [length] using Real.mul_self_sqrt (lengthSq_nonneg a)

theorem lengthSq_eq_zero_iff (a : Vec3) : a.lengthSq = 0 ↔ a = zero := by
  constructor
  · intro h
    have hx : 0 ≤ a.x * a.x := mul_self_nonneg _
    have hy : 0 ≤ a.y * a.y := mul_self_nonneg _
    have hz : 0 ≤ a.z * a.z := mul_self_nonneg _
    simp only [lengthSq] at h
    have hx0 : a.x = 0 := by nlinarith
    have hy0 : a.y = 0 := by nlinarith
    have hz0 : a.z = 0 := by nlinarith
    ext <;> simp [hx0, hy0, hz0]
  · intro h; subst h; simp [lengthSq]

theorem length_eq_zero_iff (a : Vec3) : a.length = 0 ↔ a = zero := by
  rw [length, Real.sqrt_eq_zero (lengthSq_nonneg a)]
  exact lengthSq_eq_zero_iff a

@[simp] theorem length_zero : (zero : Vec3).length = 0 := by
  rw [length_eq_zero_iff]

theorem length_pos_of_ne_zero {a : Vec3} (h : a ≠ zero) : 0 < a.length :=
  lt_of_le_of_ne (length_nonneg a) fun e => h ((length_eq_zero_iff a).mp e.symm)

/-- Normalizing the zero vector is a no-op. -/
theorem normalize_zero : (zero : Vec3).normalize = zero := by
  simp [normalize, divideScalar, multiplyScalar, zero]

theorem normalize_of_ne_zero {a : Vec3} (h : a ≠ zero) :
    a.normalize = a.multiplyScalar (1 / a.length) := by
  have : a.length ≠ 0 := fun e => h ((length_eq_zero_iff a).mp e)
  simp [normalize, divideScalar, this]

/-- Every normalized vector is the zero vector or a unit vector. -/
theorem normalize_length (a : Vec3) :
    a.normalize = zero ∨ a.normalize.length = 1 := by
  by_cases h : a = zero
  · left; rw [h]; exact normalize_zero
  · right
    have hl : 0 < a.length := length_pos_of_ne_zero h
    rw [normalize_of_ne_zero h]
    have hsq : (a.multiplyScalar (1 / a.length)).lengthSq = 1 := by
      have := length_sq_eq a
      simp only [lengthSq, multiplyScalar] at *
      field_simp
      nlinarith [this]
    rw [length, hsq, Real.sqrt_one]

theorem dot_comm (a b : Vec3) : a.dot b = b.dot a := by
  simp [dot]; ring

theorem cross_dot_self (a b : Vec3) : (a.cross b).dot a = 0 := by
  simp [dot, cross]; ring

theorem multiplyScalar_dot (a : Vec3) (s : ℝ) (b : Vec3) :
    (a.multiplyScalar s).dot b = s * a.dot b := by
  simp [dot, multiplyScalar]; ring

theorem normalize_dot_eq_zero {a b : Vec3} (h : a.dot b = 0) :
    a.normalize.dot b = 0 := by
  by_cases ha : a = zero
  · subst ha; rw [normalize_zero]; exact h
  · rw [normalize_of_ne_zero ha, multiplyScalar_dot, h, mul_zero]

theorem sub_dot (a b c : Vec3) : (a.sub b).dot c = a.dot c - b.dot c := by
  simp [dot, sub]; ring

theorem add_dot (a b c : Vec3) : (a.add b).dot c = a.dot c + b.dot c := by
  simp [dot, add]; ring

theorem lerp_dot (a b : Vec3) (t : ℝ) (c : Vec3) :
    (a.lerp b t).dot c = a.dot c + (b.dot c - a.dot c) * t := by
  simp [dot, lerp]; ring

/-- A unit vector dotted with itself is `1` (stated via `normalize`). -/
theorem normalize_dot_self (a : Vec3) :
    a.normalize = zero ∨ a.normalize.dot a.normalize = 1 := by
  rcases normalize_length a with h | h
  · exact Or.inl h
  · right
    have := Real.mul_self_sqrt (lengthSq_nonneg a.normalize)
    have h2 : a.normalize.length * a.normalize.length = 1 := by rw [h]; ring
    rw [length_sq_eq] at h2
    rw [lengthSq_eq_dot] at h2
    exact h2

/-- Scaling a vector by a positive scalar does not change its normalization. -/
theorem normalize_multiplyScalar_pos (a : Vec3) {s : ℝ} (hs : 0 < s) :
    (a.multiplyScalar s).normalize = a.normalize := by
  by_cases ha : a = zero
  · subst ha
    have : (zero.multiplyScalar s) = zero := by ext <;> simp
    rw [this]
  · have hlen : (a.multiplyScalar s).length = s * a.length := by
      rw [length, length]
      have : (a.multiplyScalar s).lengthSq = s ^ 2 * a.lengthSq := by
        simp [lengthSq, multiplyScalar]; ring
      rw [this, Real.sqrt_mul (by positivity), Real.sqrt_sq hs.le]
    have hne : a.multiplyScalar s ≠ zero := by
      intro h
      apply ha
      have hx := congrArg Vec3.x h
      have hy := congrArg Vec3.y h
      have hz := congrArg Vec3.z h
      simp [multiplyScalar, zero] at hx hy hz
      have hs0 : s ≠ 0 := ne_of_gt hs
      ext <;> simp [hx.resolve_right hs0, hy.resolve_right hs0, hz.resolve_right hs0, zero]
    rw [normalize_of_ne_zero hne, normalize_of_ne_zero ha, hlen]
    have hl : a.length ≠ 0 := fun e => ha ((length_eq_zero_iff a).mp e)
    ext <;> simp [multiplyScalar] <;> field_simp <;> ring

end Vec3

/-! ## Data model of the particle system -/

/-- Hand descriptor as consumed by the engine: only the palm anchor point
is read by the update functions (`mediapipe-handler`'s `HandControl`). -/
structure HandControl where
  palm : Vec3

/-- The behavior variant tag of `ParticleSystemConfig.behavior`. -/
inductive Behavior where
  | responsive
  | cohesive
  | needleSphere
  | needleSwarm
deriving DecidableEq

/-- `ParticleSystemConfig`: the fields the update functions read.
Optional tunables stay optional; the `?? default` fallbacks of the source
are applied at each use site, exactly as the code does. -/
structure ParticleSystemConfig where
  count : ℕ
  boundary : ℝ
  viscosity : ℝ
  behavior : Behavior
  attractionStrength : Option ℝ := none
  interactionRadius : Option ℝ := none
  cohesionStrength : Option ℝ := none
  cohesionRadius : Option ℝ := none
  baseRadius : Option ℝ := none
  radiusHandScale : Option ℝ := none
  outerRadiusMultiplier : Option ℝ := none
  needleLength : Option ℝ := none

/-- Per-particle CPU state (the fields the physics reads and writes). -/
structure Particle where
  position : Vec3
  velocity : Vec3
  direction : Vec3
  groupIndex : ℕ
  assignedCenterIndex : Option ℕ := none

namespace OptimizedParticleSystem

/-- World up axis `(0, 1, 0)` used for the tangent construction. -/
def upAxis : Vec3 := ⟨0, 1, 0⟩

/-- Unit x axis `(1, 0, 0)`, the fallback for a near-vertical radial. -/
def exAxis : Vec3 := ⟨1, 0, 0⟩

/-- Center resolution of `updateNeedleSphere`: with exactly two hands, the
palm midpoint; with exactly one hand, that palm; otherwise the origin. -/
def needleSphereCenter (controls : List HandControl) : Vec3 :=
  match controls with
  | [a, b] => (a.palm.add b.palm).multiplyScalar 0.5
  | [a] => a.palm
  | _ => Vec3.zero

/-- Driving-distance resolution of `updateNeedleSphere`: inter-palm
distance with two hands, `15` with one hand, `10` otherwise. -/
noncomputable def needleSphereHandDistance (controls : List HandControl) : ℝ :=
  match controls with
  | [a, b] => a.palm.distanceTo b.palm
  | [_] => 15
  | _ => 10

/-- Effective shell radius for a particle:
`(baseRadius + handDistance * radiusHandScale)` times `1` for the inner
shell (`groupIndex = 0`) and `outerRadiusMultiplier` for the outer. -/
noncomputable def targetRadiusForParticle (cfg : ParticleSystemConfig)
    (handDistance : ℝ) (groupIndex : ℕ) : ℝ :=
  (cfg.baseRadius.getD 8 + handDistance * cfg.radiusHandScale.getD 1.2) *
    (if groupIndex = 0 then 1 else cfg.outerRadiusMultiplier.getD 1.8)

/-- Radial direction selection shared by `updateNeedleSphere` and the
hands branch of `updateNeedleSwarm`: normalize the offset from the center
when its length exceeds `0.01`, otherwise fall back to the particle's
stored `direction` field. -/
noncomputable def radialDirection (center : Vec3) (p : Particle) : Vec3 :=
  if (p.position.sub center).length > 0.01 then (p.position.sub center).normalize
  else p.direction.normalize

/-- First tangent: `toSurface × up`, recomputed against `(1,0,0)` when
nearly degenerate, then normalized. -/
noncomputable def tangent1 (n : Vec3) : Vec3 :=
  (if (n.cross upAxis).lengthSq < 0.01 then n.cross exAxis else n.cross upAxis).normalize

/-- Second tangent: `toSurface × tangent1`, normalized. -/
noncomputable def tangent2 (n : Vec3) : Vec3 :=
  (n.cross (tangent1 n)).normalize

/-- Swimming drive: `tangent1 * (cos phase * speed) + tangent2 * (sin phase * speed)`. -/
noncomputable def swimDirection (n : Vec3) (phase speed : ℝ) : Vec3 :=
  ((tangent1 n).multiplyScalar (Real.cos phase * speed)).add
    ((tangent2 n).multiplyScalar (Real.sin phase * speed))

/-- Velocity produced by the needle-sphere tick of
`src/lib/optimized-particle-system.ts`: `velocity.lerp(swimDirection, deltaTime * 3.0)`. -/
noncomputable def needleSphereVelocity (time dt : ℝ) (i : ℕ) (n : Vec3) (p : Particle) : Vec3 :=
  p.velocity.lerp (swimDirection n ((i : ℝ) * 0.01 + time * 0.4) 4.0) (dt * 3.0)

/-- Position after the move step, before re-projection: the exact surface
point plus `velocity * deltaTime`. -/
noncomputable def needleSpherePostMovePosition (cfg : ParticleSystemConfig)
    (controls : List HandControl) (time dt : ℝ) (i : ℕ) (p : Particle) : Vec3 :=
  let center := needleSphereCenter controls
  let r := targetRadiusForParticle cfg (needleSphereHandDistance controls) p.groupIndex
  let n := radialDirection center p
  let surfacePos := (n.multiplyScalar r).add center
  surfacePos.add ((needleSphereVelocity time dt i n p).multiplyScalar dt)

/-- Offset of the post-move position from the center; the code re-projects
only when its `lengthSq` exceeds `0.01`. -/
noncomputable def needleSpherePostMoveOffset (cfg : ParticleSystemConfig)
    (controls : List HandControl) (time dt : ℝ) (i : ℕ) (p : Particle) : Vec3 :=
  (needleSpherePostMovePosition cfg controls time dt i p).sub (needleSphereCenter controls)

/-- Per-particle needle-sphere tick of `src/lib/optimized-particle-system.ts`
(`updateNeedleSphere`, lines 350-412): project the particle onto its shell
(direction fallback when within `0.01` of the center), lerp the velocity
toward the tangential swimming drive, advance by `velocity * deltaTime`,
and re-project onto the shell only when the new offset from the center has
squared length above `0.01`.  `time` is `performance.now() * 0.001`;
`i` is the particle's index; `direction` and `groupIndex` are not written. -/
noncomputable def updateNeedleSphere (cfg : ParticleSystemConfig)
    (controls : List HandControl) (time dt : ℝ) (i : ℕ) (p : Particle) : Particle :=
  let center := needleSphereCenter controls
  let r := targetRadiusForParticle cfg (needleSphereHandDistance controls) p.groupIndex
  let n := radialDirection center p
  let vel := needleSphereVelocity time dt i n p
  let moved := needleSpherePostMovePosition cfg controls time dt i p
  let offset := moved.sub center
  let pos :=
    if offset.lengthSq > 0.01 then ((offset.normalize).multiplyScalar r).add center else moved
  { p with position := pos, velocity := vel }

end OptimizedParticleSystem

namespace OptimizedParticleSystemStrict

open OptimizedParticleSystem

/-- Velocity produced by the strict needle-sphere tick of
`src/unnamed/part_001`: strip the radial component of the velocity, then
lerp the tangential remainder toward the swimming drive. -/
noncomputable def needleSphereVelocity (time dt : ℝ) (i : ℕ) (n : Vec3) (p : Particle) : Vec3 :=
  let currentRadial := n.multiplyScalar (p.velocity.dot n)
  let tangentialVelocity := p.velocity.sub currentRadial
  tangentialVelocity.lerp
    (swimDirection n ((i : ℝ) * 0.01 + time * 0.4) 4.0) (dt * 3.0)

/-- Per-particle strict needle-sphere tick of `src/unnamed/part_001`
(`updateNeedleSphere`, lines 367-470): project onto the exact shell
first, strip the velocity's radial component and blend the tangential
remainder toward the swimming drive, advance by `velocity * deltaTime`,
then always re-project onto the exact shell (using the stored direction
as fallback when within `0.01` squared length of the center), and record
the new radial direction in `direction`. -/
noncomputable def updateNeedleSphere (cfg : ParticleSystemConfig)
    (controls : List HandControl) (time dt : ℝ) (i : ℕ) (p : Particle) : Particle :=
  let center := needleSphereCenter controls
  let r := targetRadiusForParticle cfg (needleSphereHandDistance controls) p.groupIndex
  let n := radialDirection center p
  let surfacePos := (n.multiplyScalar r).add center
  let vel := needleSphereVelocity time dt i n p
  let moved := surfacePos.add (vel.multiplyScalar dt)
  let offset := moved.sub center
  let pos :=
    if offset.lengthSq > 0.0001 then ((offset.normalize).multiplyScalar r).add center
    else ((p.direction.normalize).multiplyScalar r).add center
  let updatedDirection := pos.sub center
  let dir := if updatedDirection.lengthSq > 0.0001 then updatedDirection.normalize
    else p.direction
  { p with position := pos, velocity := vel, direction := dir }

end OptimizedParticleSystemStrict

namespace Vec3

instance : Zero Vec3 := ⟨Vec3.zero⟩
instance : Add Vec3 := ⟨Vec3.add⟩

theorem add_eq (a b : Vec3) : a.add b = a + b := rfl

theorem zero_eq : (0 : Vec3) = Vec3.zero := rfl

instance : AddCommMonoid Vec3 where
  add_assoc a b c := by ext <;> simp [← add_eq] <;> ring
  zero_add a := by ext <;> simp [← add_eq, ← zero_eq, zero_eq]
  add_zero a := by ext <;> simp [← add_eq, ← zero_eq, zero_eq]
  add_comm a b := by ext <;> simp [← add_eq] <;> ring
  nsmul := nsmulRec

theorem length_multiplyScalar (a : Vec3) (s : ℝ) :
    (a.multiplyScalar s).length = |s| * a.length := by
  have h : (a.multiplyScalar s).lengthSq = s ^ 2 * a.lengthSq := by
    simp [lengthSq, multiplyScalar]; ring
  rw [length, h, Real.sqrt_mul (by positivity), length, Real.sqrt_sq_eq_abs]

end Vec3

namespace OptimizedParticleSystem

/-- Per-axis position clamp of `applyBoundaries`:
`Math.sign(position[axis]) * boundary` when out of bounds. -/
noncomputable def clampPosAxis (boundary p : ℝ) : ℝ :=
  if |p| > boundary then Real.sign p * boundary else p

/-- Per-axis velocity damping of `applyBoundaries`: the component is
multiplied by `-0.8` exactly when that axis is out of bounds. -/
noncomputable def clampVelAxis (boundary p v : ℝ) : ℝ :=
  if |p| > boundary then v * (-0.8) else v

/-- `applyBoundaries` (lines 796-804): the loop over `['x','y','z']`
touches each axis independently, so it is the componentwise clamp. -/
noncomputable def applyBoundaries (boundary : ℝ) (pos vel : Vec3) : Vec3 × Vec3 :=
  (⟨clampPosAxis boundary pos.x, clampPosAxis boundary pos.y, clampPosAxis boundary pos.z⟩,
   ⟨clampVelAxis boundary pos.x vel.x, clampVelAxis boundary pos.y vel.y,
    clampVelAxis boundary pos.z vel.z⟩)

/-- `applyBoundaries` acting on a particle record. -/
noncomputable def applyBoundariesP (cfg : ParticleSystemConfig) (p : Particle) : Particle :=
  { p with position := (applyBoundaries cfg.boundary p.position p.velocity).1,
           velocity := (applyBoundaries cfg.boundary p.position p.velocity).2 }

/-- Random jitter added each responsive tick: three fresh `Math.random()`
draws, each shifted and scaled to `(r - 0.5) * 0.05`. -/
def jitterVec (r1 r2 r3 : ℝ) : Vec3 :=
  ⟨(r1 - 0.5) * 0.05, (r2 - 0.5) * 0.05, (r3 - 0.5) * 0.05⟩

/-- Attraction force contributed by one in-range hand in
`handleResponsiveBehavior`:
`toPalm.normalize() * (attractionStrength * (1 - dist / interactionRadius))`
with the source's `?? 0` / `?? 1` fallbacks. -/
noncomputable def attractionTerm (cfg : ParticleSystemConfig) (pos : Vec3)
    (c : HandControl) : Vec3 :=
  ((c.palm.sub pos).normalize).multiplyScalar
    (cfg.attractionStrength.getD 0 * (1 - (c.palm.sub pos).length / cfg.interactionRadius.getD 1))

/-- `handleResponsiveBehavior` (lines 731-764): accumulate the attraction
term of every hand whose palm distance is strictly below
`interactionRadius ?? 0`, then add the random jitter. -/
noncomputable def handleResponsiveBehavior (cfg : ParticleSystemConfig)
    (controls : List HandControl) (pos : Vec3) (r1 r2 r3 : ℝ) : Vec3 :=
  (controls.foldl
    (fun acc c =>
      if (c.palm.sub pos).length < cfg.interactionRadius.getD 0
      then acc.add (attractionTerm cfg pos c) else acc)
    Vec3.zero).add (jitterVec r1 r2 r3)

/-- Cohesion force contributed by one sampled in-range particle in
`handleCohesiveBehavior`:
`dir.normalize() * (cohesionStrength * (1 - dist / cohesionRadius))`. -/
noncomputable def cohesionTerm (cfg : ParticleSystemConfig) (pos : Vec3)
    (other : Particle) : Vec3 :=
  ((other.position.sub pos).normalize).multiplyScalar
    (cfg.cohesionStrength.getD 0 * (1 - (other.position.sub pos).length / cfg.cohesionRadius.getD 1))

/-- `handleCohesiveBehavior` (lines 766-794): start from the center pull
`position * (-0.01)`, then fold over the enumerated store; the loop
`for (i = 0; i < length; i += 10)` visits exactly the indices divisible
by the `checkStep` of `10`, skips the particle's own index, and adds the
cohesion term of every sampled particle strictly within
`cohesionRadius ?? 0`. -/
noncomputable def handleCohesiveBehavior (cfg : ParticleSystemConfig)
    (particles : List Particle) (index : ℕ) (pos : Vec3) : Vec3 :=
  particles.enum.foldl
    (fun acc ic =>
      if ic.1 % 10 = 0 ∧ ic.1 ≠ index ∧
          (ic.2.position.sub pos).length < cfg.cohesionRadius.getD 0
      then acc.add (cohesionTerm cfg pos ic.2) else acc)
    (pos.multiplyScalar (-0.01))

/-- Integration step shared by the responsive and cohesive branches of
`update` (lines 281-284): `velocity += force; velocity *= viscosity;
position += velocity`. -/
noncomputable def integrate (cfg : ParticleSystemConfig) (totalForce : Vec3)
    (p : Particle) : Particle :=
  let vel := (p.velocity.add totalForce).multiplyScalar cfg.viscosity
  { p with velocity := vel, position := p.position.add vel }

/-- Per-particle responsive/cohesive body of `update(deltaTime)`
(lines 257-295 of `src/lib/optimized-particle-system.ts`; the class in
`src/unnamed/part_002` has the identical body): force accumulation by
behavior tag, integration, then boundary clamping.  The received
`deltaTime` argument `dt` is never read on this path, exactly as in the
source. -/
noncomputable def updateResponsiveCohesive (cfg : ParticleSystemConfig)
    (controls : List HandControl) (particles : List Particle) (index : ℕ)
    (dt : ℝ) (r1 r2 r3 : ℝ) (p : Particle) : Particle :=
  let totalForce :=
    if cfg.behavior = Behavior.responsive
    then handleResponsiveBehavior cfg controls p.position r1 r2 r3
    else handleCohesiveBehavior cfg particles index p.position
  applyBoundariesP cfg (integrate cfg totalForce p)

/-- Distance from `pos` to the `j`-th candidate center. -/
noncomputable def centerDist (pos : Vec3) (centers : List Vec3) (j : ℕ) : ℝ :=
  pos.distanceTo (centers.getD j Vec3.zero)

/-- Nearest-center loop of `updateNeedleSwarm` step 1:
`minDist = Infinity; for j: if (d < minDist) { minDist = d; nearest = j }`.
The accumulator's `none` plays the role of `Infinity`. -/
noncomputable def nearestScan (pos : Vec3) (centers : List Vec3) :
    List ℕ → ℕ × Option ℝ → ℕ × Option ℝ
  | [], best => best
  | j :: rest, best =>
    nearestScan pos centers rest
      (match best.2 with
       | none => (j, some (centerDist pos centers j))
       | some m =>
         if centerDist pos centers j < m then (j, some (centerDist pos centers j)) else best)

/-- Index of the nearest center, starting from `nearestIndex = 0`. -/
noncomputable def nearestCenterIndex (pos : Vec3) (centers : List Vec3) : ℕ :=
  (nearestScan pos centers (List.range centers.length) (0, none)).1

/-- Reassignment scan of `updateNeedleSwarm` step 1: the first index
`j ≠ k` whose distance is below `currentDist * 0.8` (the loop breaks at
the first hit). -/
noncomputable def findCloserCenter (pos : Vec3) (centers : List Vec3) (k : ℕ)
    (currentDist : ℝ) : List ℕ → Option ℕ
  | [] => none
  | j :: rest =>
    if j ≠ k ∧ centerDist pos centers j < currentDist * 0.8 then some j
    else findCloserCenter pos centers k currentDist rest

/-- Step 1 of `updateNeedleSwarm` (lines 543-583; identical in
`src/unnamed/part_001`, lines 596-638): a particle with no valid assigned
center takes the nearest one; an assigned particle switches only to the
first center at least 20 percent closer than its current one. -/
noncomputable def assignCenterStep (centers : List Vec3) (p : Particle) : ℕ :=
  match p.assignedCenterIndex with
  | none => nearestCenterIndex p.position centers
  | some k =>
    if k ≥ centers.length then nearestCenterIndex p.position centers
    else
      match findCloserCenter p.position centers k (centerDist p.position centers k)
          (List.range centers.length) with
      | some j => j
      | none => k

end OptimizedParticleSystem

namespace Vec3

theorem multiplyScalar_comp (a : Vec3) (s t : ℝ) :
    (a.multiplyScalar s).multiplyScalar t = a.multiplyScalar (s * t) := by
  ext <;> simp <;> ring

theorem add_zero_vec (a : Vec3) : a.add zero = a := by
  ext <;> simp

theorem zero_add_vec (a : Vec3) : zero.add a = a := by
  ext <;> simp

theorem sub_zero_vec (a : Vec3) : a.sub zero = a := by
  ext <;> simp

theorem dot_zero_right (a : Vec3) : a.dot zero = 0 := by
  simp [dot]

end Vec3

open OptimizedParticleSystem

/-- Claim C10: for the responsive and cohesive variants, the state change
performed by `update(deltaTime)` does not depend on the `deltaTime`
argument: with identical particle state, hand snapshot and random draws,
`update(d1)` and `update(d2)` produce identical particle positions and
velocities, because the integration step reads neither `deltaTime` nor
any clamp of it. -/
theorem C10_update_independent_of_deltaTime (cfg : ParticleSystemConfig)
    (controls : List HandControl) (particles : List Particle) (index : ℕ)
    (d1 d2 : ℝ) (r1 r2 r3 : ℝ) (p : Particle) :
    updateResponsiveCohesive cfg controls particles index d1 r1 r2 r3 p =
      updateResponsiveCohesive cfg controls particles index d2 r1 r2 r3 p := rfl

/-- Claim C3: the needle-sphere tick resolves its active center and
driving distance solely from the palm positions of the current snapshot:
with two hands the center is the componentwise palm midpoint and the
driving distance the inter-palm Euclidean distance; with one hand the
center is that palm and the distance `15`; with zero hands the center is
the origin and the distance `10` (the resolution functions take only the
current snapshot, so no previous non-empty snapshot can influence them);
and the effective shell radius is
`baseRadius + drivingDistance * radiusHandScale`, multiplied by
`outerRadiusMultiplier` exactly for the outer group `groupIndex = 1`. -/
theorem C3_center_driving_distance_radius (a b : HandControl)
    (cfg : ParticleSystemConfig) (br rhs orm hd : ℝ) :
    (needleSphereCenter [a, b]).x = (a.palm.x + b.palm.x) / 2 ∧
    (needleSphereCenter [a, b]).y = (a.palm.y + b.palm.y) / 2 ∧
    (needleSphereCenter [a, b]).z = (a.palm.z + b.palm.z) / 2 ∧
    needleSphereHandDistance [a, b] =
      Real.sqrt ((a.palm.x - b.palm.x) ^ 2 + (a.palm.y - b.palm.y) ^ 2 +
        (a.palm.z - b.palm.z) ^ 2) ∧
    needleSphereCenter [a] = a.palm ∧
    needleSphereHandDistance [a] = 15 ∧
    needleSphereCenter [] = Vec3.zero ∧
    needleSphereHandDistance [] = 10 ∧
    (cfg.baseRadius = some br → cfg.radiusHandScale = some rhs →
      cfg.outerRadiusMultiplier = some orm →
      targetRadiusForParticle cfg hd 0 = br + hd * rhs ∧
      targetRadiusForParticle cfg hd 1 = (br + hd * rhs) * orm) := by
  refine ⟨?_, ?_, ?_, ?_, rfl, rfl, rfl, rfl, ?_⟩
  · simp [needleSphereCenter]; ring
  · simp [needleSphereCenter]; ring
  · simp [needleSphereCenter]; ring
  · simp only [needleSphereHandDistance, Vec3.distanceTo, Vec3.length, Vec3.lengthSq,
      Vec3.sub_x, Vec3.sub_y, Vec3.sub_z]
    ring_nf
  · intro h1 h2 h3
    constructor
    · simp [targetRadiusForParticle, h1, h2]
    · simp [targetRadiusForParticle, h1, h2, h3]

/-- The needle-sphere instance configuration built by
`OptimizedLiquidSimulation` (canvas `three-canvas-needle`). -/
def needleCfg : ParticleSystemConfig :=
  { count := 2000, boundary := 60, viscosity := 0.9, behavior := Behavior.needleSphere,
    baseRadius := some 8, radiusHandScale := some 1.2, outerRadiusMultiplier := some 1.9,
    needleLength := some 4 }

/-- Witness for C3 at a concrete snapshot and the repository's needle
configuration. -/
theorem C3_center_driving_distance_radius_witness :
    needleCfg.baseRadius = some 8 ∧ needleCfg.radiusHandScale = some 1.2 ∧
    needleCfg.outerRadiusMultiplier = some 1.9 ∧
    targetRadiusForParticle needleCfg 10 0 = 8 + 10 * 1.2 ∧
    targetRadiusForParticle needleCfg 10 1 = (8 + 10 * 1.2) * 1.9 := by
  obtain ⟨-, -, -, -, -, -, -, -, h⟩ :=
    C3_center_driving_distance_radius ⟨⟨1, 2, 3⟩⟩ ⟨⟨4, 5, 6⟩⟩ needleCfg 8 1.2 1.9 10
  obtain ⟨h0, h1⟩ := h rfl rfl rfl
  exact ⟨rfl, rfl, rfl, h0, h1⟩

/-- The clamped position component never exceeds a nonnegative boundary. -/
theorem abs_clampPosAxis {b : ℝ} (hb : 0 ≤ b) (p : ℝ) : |clampPosAxis b p| ≤ b := by
  unfold clampPosAxis
  split
  · rename_i h
    rcases lt_trichotomy p 0 with hp | hp | hp
    · rw [Real.sign_of_neg hp]
      rw [abs_mul]
      simp [abs_of_nonneg hb]
    · subst hp
      simp only [abs_zero] at h
      linarith
    · rw [Real.sign_of_pos hp]
      rw [abs_mul]
      simp [abs_of_nonneg hb]
  · rename_i h
    push_neg at h
    exact h

/-- Claim C5: `applyBoundaries` acts on the three axes independently:
whenever `|position[axis]| > boundary` the position component becomes
`sign(position[axis]) * boundary` and the velocity component is
multiplied by `-0.8`, while an in-bounds axis keeps both components
(each output component depends only on its own axis); and with a
nonnegative boundary every output position component — hence every
position component after a responsive/cohesive `update` tick, which ends
in `applyBoundaries` — satisfies `|position[axis]| <= boundary`. -/
theorem C5_applyBoundaries_axiswise_clamp
    (cfg : ParticleSystemConfig) (controls : List HandControl)
    (particles : List Particle) (index : ℕ) (dt r1 r2 r3 : ℝ)
    (b : ℝ) (pos vel : Vec3) (p : Particle) :
    ((applyBoundaries b pos vel).1.x = if |pos.x| > b then Real.sign pos.x * b else pos.x) ∧
    ((applyBoundaries b pos vel).1.y = if |pos.y| > b then Real.sign pos.y * b else pos.y) ∧
    ((applyBoundaries b pos vel).1.z = if |pos.z| > b then Real.sign pos.z * b else pos.z) ∧
    ((applyBoundaries b pos vel).2.x = if |pos.x| > b then vel.x * (-0.8) else vel.x) ∧
    ((applyBoundaries b pos vel).2.y = if |pos.y| > b then vel.y * (-0.8) else vel.y) ∧
    ((applyBoundaries b pos vel).2.z = if |pos.z| > b then vel.z * (-0.8) else vel.z) ∧
    (0 ≤ b → |(applyBoundaries b pos vel).1.x| ≤ b ∧ |(applyBoundaries b pos vel).1.y| ≤ b ∧
      |(applyBoundaries b pos vel).1.z| ≤ b) ∧
    (0 ≤ cfg.boundary →
      |(updateResponsiveCohesive cfg controls particles index dt r1 r2 r3 p).position.x| ≤
        cfg.boundary ∧
      |(updateResponsiveCohesive cfg controls particles index dt r1 r2 r3 p).position.y| ≤
        cfg.boundary ∧
      |(updateResponsiveCohesive cfg controls particles index dt r1 r2 r3 p).position.z| ≤
        cfg.boundary) := by
  refine ⟨rfl, rfl, rfl, rfl, rfl, rfl, ?_, ?_⟩
  · intro hb
    exact ⟨abs_clampPosAxis hb _, abs_clampPosAxis hb _, abs_clampPosAxis hb _⟩
  · intro hb
    exact ⟨abs_clampPosAxis hb _, abs_clampPosAxis hb _, abs_clampPosAxis hb _⟩

/-- Witness for C5 at a concrete boundary and out-of-bounds position. -/
theorem C5_applyBoundaries_axiswise_clamp_witness :
    (0 : ℝ) ≤ 10 ∧
    |(applyBoundaries 10 ⟨11, 5, -12⟩ ⟨1, 2, 3⟩).1.x| ≤ 10 ∧
    |(applyBoundaries 10 ⟨11, 5, -12⟩ ⟨1, 2, 3⟩).1.y| ≤ 10 ∧
    |(applyBoundaries 10 ⟨11, 5, -12⟩ ⟨1, 2, 3⟩).1.z| ≤ 10 := by
  have h := (C5_applyBoundaries_axiswise_clamp needleCfg [] [] 0 0 0 0 0
    10 ⟨11, 5, -12⟩ ⟨1, 2, 3⟩
    ⟨Vec3.zero, Vec3.zero, Vec3.zero, 0, none⟩).2.2.2.2.2.2.1 (by norm_num)
  exact ⟨by norm_num, h.1, h.2.1, h.2.2⟩

namespace OptimizedParticleSystem

/-- Both tangent candidates are cross products with the radial, so the
first tangent is orthogonal to the radial direction. -/
theorem tangent1_dot (n : Vec3) : (tangent1 n).dot n = 0 := by
  unfold tangent1
  split
  · exact Vec3.normalize_dot_eq_zero (Vec3.cross_dot_self n exAxis)
  · exact Vec3.normalize_dot_eq_zero (Vec3.cross_dot_self n upAxis)

/-- The second tangent is orthogonal to the radial direction. -/
theorem tangent2_dot (n : Vec3) : (tangent2 n).dot n = 0 :=
  Vec3.normalize_dot_eq_zero (Vec3.cross_dot_self n (tangent1 n))

/-- The swimming drive is orthogonal to the radial direction. -/
theorem swimDirection_dot (n : Vec3) (phase speed : ℝ) :
    (swimDirection n phase speed).dot n = 0 := by
  unfold swimDirection
  rw [Vec3.add_dot, Vec3.multiplyScalar_dot, Vec3.multiplyScalar_dot,
    tangent1_dot, tangent2_dot]
  ring

/-- The radial direction is a normalization of some vector. -/
theorem radialDirection_is_normalize (center : Vec3) (p : Particle) :
    ∃ u : Vec3, radialDirection center p = u.normalize := by
  unfold radialDirection
  split
  · exact ⟨_, rfl⟩
  · exact ⟨_, rfl⟩

end OptimizedParticleSystem

/-- Claim C2 (amended): in the strict needle-sphere implementation of
`src/unnamed/part_001`, after every update tick every particle's velocity
is exactly tangential with respect to the shell normal of that tick (the
unit radial direction the tick computed from the active center to the
particle, with the stored-direction fallback): the stripped-and-blended
velocity has dot product `0` with that radial direction, for every
configuration, snapshot, clock value, `deltaTime` and particle state.
In the implementation of `src/lib/optimized-particle-system.ts` this
fails — it lerps the full velocity without stripping the radial
component (see the counterexample). -/
theorem C2_strict_velocity_tangential (cfg : ParticleSystemConfig)
    (controls : List HandControl) (time dt : ℝ) (i : ℕ) (p : Particle) :
    ((OptimizedParticleSystemStrict.updateNeedleSphere cfg controls time dt i p).velocity).dot
      (radialDirection (needleSphereCenter controls) p) = 0 := by
  set n := radialDirection (needleSphereCenter controls) p with hn
  have hvel : (OptimizedParticleSystemStrict.updateNeedleSphere cfg controls time dt i p).velocity
      = OptimizedParticleSystemStrict.needleSphereVelocity time dt i n p := rfl
  rw [hvel]
  unfold OptimizedParticleSystemStrict.needleSphereVelocity
  rw [Vec3.lerp_dot, swimDirection_dot, Vec3.sub_dot, Vec3.multiplyScalar_dot]
  obtain ⟨u, hu⟩ := radialDirection_is_normalize (needleSphereCenter controls) p
  rcases Vec3.normalize_dot_self u with h0 | h1
  · rw [hn, hu, h0]
    simp [Vec3.dot_zero_right]
  · rw [hn, hu] at *
    rw [h1]
    ring

namespace Vec3

/-- Evaluate a length from a known square. -/
theorem length_eval {a : Vec3} {l : ℝ} (h : a.lengthSq = l ^ 2) (hl : 0 ≤ l) :
    a.length = l := by
  rw [length, h, Real.sqrt_sq hl]

theorem ne_zero_of_lengthSq_pos {a : Vec3} (h : 0 < a.lengthSq) : a ≠ zero := by
  intro e
  rw [e] at h
  simp [lengthSq] at h

/-- Evaluate a normalization from a known positive length. -/
theorem normalize_eval {a : Vec3} {l : ℝ} (h : a.lengthSq = l ^ 2) (hl : 0 < l) :
    a.normalize = a.multiplyScalar (1 / l) := by
  have ha : a ≠ zero := ne_zero_of_lengthSq_pos (by rw [h]; positivity)
  rw [normalize_of_ne_zero ha, length_eval h hl.le]

theorem dot_multiplyScalar (a b : Vec3) (s : ℝ) :
    a.dot (b.multiplyScalar s) = s * a.dot b := by
  simp [dot, multiplyScalar]; ring

/-- Normalization is idempotent. -/
theorem normalize_normalize (a : Vec3) : a.normalize.normalize = a.normalize := by
  rcases normalize_length a with h | h
  · rw [h, normalize_zero]
  · have hne : a.normalize ≠ zero := by
      intro e
      rw [e, length_zero] at h
      norm_num at h
    rw [normalize_of_ne_zero hne, h]
    ext <;> simp

end Vec3

namespace OptimizedParticleSystem

/-- The tangent frame at the radial direction `(1,0,0)`. -/
theorem tangent1_at_ex : tangent1 ⟨1, 0, 0⟩ = ⟨0, 0, 1⟩ := by
  unfold tangent1 upAxis
  have hc : Vec3.cross ⟨1, 0, 0⟩ ⟨0, 1, 0⟩ = ⟨0, 0, 1⟩ := by
    ext <;> simp
  rw [hc]
  rw [if_neg (by norm_num [Vec3.lengthSq])]
  rw [Vec3.normalize_eval (l := 1) (by simp [Vec3.lengthSq]) (by norm_num)]
  ext <;> simp

/-- The second tangent at the radial direction `(1,0,0)`. -/
theorem tangent2_at_ex : tangent2 ⟨1, 0, 0⟩ = ⟨0, -1, 0⟩ := by
  unfold tangent2
  rw [tangent1_at_ex]
  have hc : Vec3.cross ⟨1, 0, 0⟩ ⟨0, 0, 1⟩ = ⟨0, -1, 0⟩ := by
    ext <;> simp
  rw [hc]
  rw [Vec3.normalize_eval (l := 1) (by norm_num [Vec3.lengthSq]) (by norm_num)]
  ext <;> simp

/-- The swimming drive at radial `(1,0,0)`, phase `0`, speed `4`. -/
theorem swim_at_ex : swimDirection ⟨1, 0, 0⟩ 0 4.0 = ⟨0, 0, 4⟩ := by
  unfold swimDirection
  rw [tangent1_at_ex, tangent2_at_ex]
  ext <;> simp <;> norm_num

end OptimizedParticleSystem

/-- Concrete needle-sphere particle used as counterexample input: resting
on the default zero-hand shell at `(20,0,0)` with zero velocity. -/
def pOnShell : Particle :=
  { position := ⟨20, 0, 0⟩, velocity := Vec3.zero, direction := ⟨0, 1, 0⟩,
    groupIndex := 0, assignedCenterIndex := none }

/-- The radial direction of `pOnShell` relative to the origin. -/
theorem radialDirection_pOnShell : radialDirection Vec3.zero pOnShell = ⟨1, 0, 0⟩ := by
  unfold radialDirection
  have hsub : pOnShell.position.sub Vec3.zero = ⟨20, 0, 0⟩ := by
    ext <;> simp [pOnShell]
  rw [hsub]
  rw [if_pos (by rw [Vec3.length_eval (l := 20) (by norm_num [Vec3.lengthSq]) (by norm_num)]; norm_num)]
  rw [Vec3.normalize_eval (l := 20) (by norm_num [Vec3.lengthSq]) (by norm_num)]
  ext <;> norm_num

/-- The inner-shell target radius of the zero-hand snapshot under the
repository's needle configuration. -/
theorem targetRadius_needleCfg_zeroHands :
    targetRadiusForParticle needleCfg (needleSphereHandDistance []) 0 = 20 := by
  simp [targetRadiusForParticle, needleCfg, needleSphereHandDistance]
  norm_num

/-- Normalizing a nonzero vector yields a unit vector. -/
theorem Vec3.normalize_length_of_ne_zero {a : Vec3} (h : a ≠ Vec3.zero) :
    a.normalize.length = 1 := by
  have hl : 0 < a.length := Vec3.length_pos_of_ne_zero h
  rw [Vec3.normalize_of_ne_zero h, Vec3.length_multiplyScalar, abs_of_pos (by positivity)]
  field_simp

/-- Claim C1 (amended): in needle-sphere mode the shell invariant holds
for every tick in which the post-move offset from the active center has
squared length above the `0.01` re-projection threshold (and the target
radius is nonnegative): after such a tick the distance from the
particle's position to the tick's active center equals
`targetRadiusForParticle = (baseRadius + drivingDistance * radiusHandScale) *
(1 or outerRadiusMultiplier)` exactly.  When the post-move offset falls
inside the threshold, `src/lib/optimized-particle-system.ts` skips the
re-projection and leaves the particle within `0.1` of the center (see the
counterexample). -/
theorem C1_shell_invariant_amended (cfg : ParticleSystemConfig)
    (controls : List HandControl) (time dt : ℝ) (i : ℕ) (p : Particle)
    (hoff : 0.01 < (needleSpherePostMoveOffset cfg controls time dt i p).lengthSq)
    (hr : 0 ≤ targetRadiusForParticle cfg (needleSphereHandDistance controls) p.groupIndex) :
    (updateNeedleSphere cfg controls time dt i p).position.distanceTo
        (needleSphereCenter controls) =
      targetRadiusForParticle cfg (needleSphereHandDistance controls) p.groupIndex := by
  set center := needleSphereCenter controls with hc
  set r := targetRadiusForParticle cfg (needleSphereHandDistance controls) p.groupIndex with hrdef
  set w := needleSpherePostMoveOffset cfg controls time dt i p with hw
  have hoff2 : ((needleSpherePostMovePosition cfg controls time dt i p).sub center).lengthSq
      > 0.01 := by
    have : w = (needleSpherePostMovePosition cfg controls time dt i p).sub center := by
      rw [hw]; rfl
    rw [← this]
    exact hoff
  have hwne : w ≠ Vec3.zero := Vec3.ne_zero_of_lengthSq_pos (by linarith)
  have hpos : (updateNeedleSphere cfg controls time dt i p).position =
      ((w.normalize).multiplyScalar r).add center := by
    simp only [updateNeedleSphere]
    rw [if_pos hoff2]
    rfl
  rw [hpos]
  have hsub : (((w.normalize).multiplyScalar r).add center).sub center =
      (w.normalize).multiplyScalar r := by
    ext <;> simp
  rw [Vec3.distanceTo, hsub, Vec3.length_multiplyScalar,
    Vec3.normalize_length_of_ne_zero hwne, mul_one, abs_of_nonneg hr]

/-- With `deltaTime = 0` the post-move position of `pOnShell` is the exact
projection point `(20,0,0)`. -/
theorem postMove_pOnShell_dt0 :
    needleSpherePostMovePosition needleCfg [] 0 0 0 pOnShell = ⟨20, 0, 0⟩ := by
  simp only [needleSpherePostMovePosition]
  rw [show needleSphereCenter ([] : List HandControl) = Vec3.zero from rfl,
    radialDirection_pOnShell, show pOnShell.groupIndex = 0 from rfl,
    targetRadius_needleCfg_zeroHands]
  ext <;> simp

/-- Witness for the amended C1 at a concrete on-shell particle. -/
theorem C1_shell_invariant_amended_witness :
    0.01 < (needleSpherePostMoveOffset needleCfg [] 0 0 0 pOnShell).lengthSq ∧
    0 ≤ targetRadiusForParticle needleCfg (needleSphereHandDistance []) pOnShell.groupIndex ∧
    (updateNeedleSphere needleCfg [] 0 0 0 pOnShell).position.distanceTo
        (needleSphereCenter []) =
      targetRadiusForParticle needleCfg (needleSphereHandDistance []) pOnShell.groupIndex := by
  have hoff : needleSpherePostMoveOffset needleCfg [] 0 0 0 pOnShell = ⟨20, 0, 0⟩ := by
    simp only [needleSpherePostMoveOffset]
    rw [postMove_pOnShell_dt0, show needleSphereCenter ([] : List HandControl) = Vec3.zero from rfl]
    ext <;> simp
  have h1 : 0.01 < (needleSpherePostMoveOffset needleCfg [] 0 0 0 pOnShell).lengthSq := by
    rw [hoff]; norm_num [Vec3.lengthSq]
  have h2 : 0 ≤ targetRadiusForParticle needleCfg (needleSphereHandDistance [])
      pOnShell.groupIndex := by
    show 0 ≤ targetRadiusForParticle needleCfg (needleSphereHandDistance []) 0
    rw [targetRadius_needleCfg_zeroHands]; norm_num
  exact ⟨h1, h2, C1_shell_invariant_amended needleCfg [] 0 0 0 pOnShell h1 h2⟩

/-- Counterexample input for C1: a particle sitting at the active center
whose velocity exactly cancels the projected surface position within one
tick of `deltaTime = 1`. -/
def pAtCenter : Particle :=
  { position := Vec3.zero, velocity := ⟨10, 0, 6⟩, direction := ⟨1, 0, 0⟩,
    groupIndex := 0, assignedCenterIndex := none }

/-- The radial direction of `pAtCenter` falls back to its stored direction. -/
theorem radialDirection_pAtCenter : radialDirection Vec3.zero pAtCenter = ⟨1, 0, 0⟩ := by
  unfold radialDirection
  have hsub : pAtCenter.position.sub Vec3.zero = Vec3.zero := by
    ext <;> simp [pAtCenter]
  rw [hsub]
  rw [if_neg (by rw [Vec3.length_zero]; norm_num)]
  rw [show pAtCenter.direction = (⟨1, 0, 0⟩ : Vec3) from rfl]
  rw [Vec3.normalize_eval (l := 1) (by norm_num [Vec3.lengthSq]) (by norm_num)]
  ext <;> simp

/-- The tick velocity of `pAtCenter` at `time = 0`, `deltaTime = 1`. -/
theorem vel_pAtCenter : needleSphereVelocity 0 1 0 ⟨1, 0, 0⟩ pAtCenter = ⟨-20, 0, 0⟩ := by
  unfold needleSphereVelocity
  rw [show (((0 : ℕ) : ℝ) * 0.01 + 0 * 0.4) = 0 by norm_num, swim_at_ex]
  ext <;> simp [pAtCenter] <;> norm_num

/-- The post-move position of `pAtCenter` lands exactly on the center. -/
theorem postMove_pAtCenter :
    needleSpherePostMovePosition needleCfg [] 0 1 0 pAtCenter = Vec3.zero := by
  simp only [needleSpherePostMovePosition]
  rw [show needleSphereCenter ([] : List HandControl) = Vec3.zero from rfl,
    radialDirection_pAtCenter, show pAtCenter.groupIndex = 0 from rfl,
    targetRadius_needleCfg_zeroHands, vel_pAtCenter]
  ext <;> simp

/-- Counterexample to claim C1 as stated: with zero hands and the
repository's needle configuration, the particle `pAtCenter` ends the
`deltaTime = 1`, `time = 0` tick at distance `0` from the active center
while its target radius is `20`: the shell invariant misses by `20`, far
beyond the `1e-3` tolerance, because the post-move offset fell inside the
`0.01` squared-length threshold and the re-projection was skipped. -/
theorem C1_shell_invariant_counterexample :
    ¬ (|(updateNeedleSphere needleCfg [] 0 1 0 pAtCenter).position.distanceTo
          (needleSphereCenter []) -
        targetRadiusForParticle needleCfg (needleSphereHandDistance [])
          pAtCenter.groupIndex| < 0.001) := by
  have hpos : (updateNeedleSphere needleCfg [] 0 1 0 pAtCenter).position = Vec3.zero := by
    simp only [updateNeedleSphere]
    rw [show needleSphereCenter ([] : List HandControl) = Vec3.zero from rfl, postMove_pAtCenter]
    rw [if_neg (by
      rw [show Vec3.zero.sub Vec3.zero = Vec3.zero by ext <;> simp]
      norm_num [Vec3.lengthSq])]
  have hdist : (updateNeedleSphere needleCfg [] 0 1 0 pAtCenter).position.distanceTo
      (needleSphereCenter []) = 0 := by
    rw [hpos, show needleSphereCenter ([] : List HandControl) = Vec3.zero from rfl,
      Vec3.distanceTo, show Vec3.zero.sub Vec3.zero = Vec3.zero by ext <;> simp,
      Vec3.length_zero]
  have htr : targetRadiusForParticle needleCfg (needleSphereHandDistance [])
      pAtCenter.groupIndex = 20 := by
    show targetRadiusForParticle needleCfg (needleSphereHandDistance []) 0 = 20
    exact targetRadius_needleCfg_zeroHands
  rw [hdist, htr]
  norm_num

/-- The tick velocity of `pOnShell` at `time = 0`, `deltaTime = 1/3`: the
lerp factor is `1`, so the velocity becomes the swimming drive itself. -/
theorem vel_pOnShell_dt13 :
    needleSphereVelocity 0 (1 / 3) 0 ⟨1, 0, 0⟩ pOnShell = ⟨0, 0, 4⟩ := by
  unfold needleSphereVelocity
  rw [show (((0 : ℕ) : ℝ) * 0.01 + 0 * 0.4) = 0 by norm_num, swim_at_ex]
  ext <;> simp [pOnShell] <;> norm_num

/-- The post-move position of `pOnShell` for `deltaTime = 1/3`. -/
theorem postMove_pOnShell_dt13 :
    needleSpherePostMovePosition needleCfg [] 0 (1 / 3) 0 pOnShell = ⟨20, 0, 4 / 3⟩ := by
  simp only [needleSpherePostMovePosition]
  rw [show needleSphereCenter ([] : List HandControl) = Vec3.zero from rfl,
    radialDirection_pOnShell, show pOnShell.groupIndex = 0 from rfl,
    targetRadius_needleCfg_zeroHands, vel_pOnShell_dt13]
  ext <;> simp <;> norm_num

/-- Counterexample to claim C2 as stated: in the needle-sphere mode of
`src/lib/optimized-particle-system.ts`, after the `time = 0`,
`deltaTime = 1/3` tick on `pOnShell` with zero hands, the velocity is the
full swimming drive `(0,0,4)` while the post-tick radial unit direction
has a `z` component of about `0.066`: the radial projection of the
velocity is about `0.266`, far above the `1e-3` tolerance — the
implementation never strips the radial component of the velocity. -/
theorem C2_velocity_tangential_counterexample :
    ¬ (|((updateNeedleSphere needleCfg [] 0 (1 / 3) 0 pOnShell).velocity).dot
          ((((updateNeedleSphere needleCfg [] 0 (1 / 3) 0 pOnShell).position).sub
            (needleSphereCenter [])).normalize)| < 0.001) := by
  have hvel : (updateNeedleSphere needleCfg [] 0 (1 / 3) 0 pOnShell).velocity = ⟨0, 0, 4⟩ := by
    show needleSphereVelocity 0 (1 / 3) 0
      (radialDirection (needleSphereCenter []) pOnShell) pOnShell = ⟨0, 0, 4⟩
    rw [show needleSphereCenter ([] : List HandControl) = Vec3.zero from rfl,
      radialDirection_pOnShell]
    exact vel_pOnShell_dt13
  have hw : ((⟨20, 0, 4 / 3⟩ : Vec3)).sub Vec3.zero = ⟨20, 0, 4 / 3⟩ := by
    ext <;> simp
  have hpos : (updateNeedleSphere needleCfg [] 0 (1 / 3) 0 pOnShell).position =
      (((⟨20, 0, 4 / 3⟩ : Vec3).normalize).multiplyScalar 20).add Vec3.zero := by
    simp only [updateNeedleSphere]
    rw [show needleSphereCenter ([] : List HandControl) = Vec3.zero from rfl,
      postMove_pOnShell_dt13, hw, show pOnShell.groupIndex = 0 from rfl,
      targetRadius_needleCfg_zeroHands]
    rw [if_pos (by norm_num [Vec3.lengthSq])]
  rw [hvel, hpos, show needleSphereCenter ([] : List HandControl) = Vec3.zero from rfl]
  set w : Vec3 := ⟨20, 0, 4 / 3⟩ with hwdef
  have hwne : w ≠ Vec3.zero := Vec3.ne_zero_of_lengthSq_pos (by norm_num [Vec3.lengthSq])
  have hsub : (((w.normalize).multiplyScalar 20).add Vec3.zero).sub Vec3.zero =
      (w.normalize).multiplyScalar 20 := by
    ext <;> simp
  rw [hsub, Vec3.normalize_multiplyScalar_pos w.normalize (by norm_num : (0 : ℝ) < 20),
    Vec3.normalize_normalize, Vec3.normalize_of_ne_zero hwne]
  rw [Vec3.dot_multiplyScalar]
  have hdot : (⟨0, 0, 4⟩ : Vec3).dot w = 16 / 3 := by
    simp [Vec3.dot, hwdef]
    norm_num
  rw [hdot]
  have hLpos : 0 < w.length := Vec3.length_pos_of_ne_zero hwne
  have hLsq : w.length * w.length = 3616 / 9 := by
    rw [Vec3.length_sq_eq]
    norm_num [Vec3.lengthSq, hwdef]
  have hLle : w.length ≤ 21 := by nlinarith
  have hinv : 1 / 21 ≤ 1 / w.length := by
    apply one_div_le_one_div_of_le hLpos hLle
  have hval : (0.001 : ℝ) < 1 / w.length * (16 / 3) := by nlinarith
  rw [abs_of_pos (by positivity)]
  linarith

/-- Claim C8: in the sphere-constrained updates (the needle-sphere ticks
of both variants and the hands branch of `updateNeedleSwarm` all select
their radial unit vector through `radialDirection`), whenever the
particle's distance to the active center is at or below the `0.01`
threshold the radial direction falls back to the particle's stored
`direction` field; and the embedded `normalize` is total — it returns the
zero vector or a unit vector, and the zero-length normalize is a defined
no-op — so no update produces an undefined (NaN) component for position,
velocity or direction. -/
theorem C8_degenerate_center_fallback (center : Vec3) (p : Particle) (v : Vec3)
    (h : p.position.distanceTo center ≤ 0.01) :
    radialDirection center p = p.direction.normalize ∧
    (v.normalize = Vec3.zero ∨ v.normalize.length = 1) ∧
    Vec3.zero.normalize = Vec3.zero := by
  refine ⟨?_, Vec3.normalize_length v, Vec3.normalize_zero⟩
  unfold radialDirection
  rw [Vec3.distanceTo] at h
  rw [if_neg (not_lt.mpr h)]

/-- Witness for C8: a particle exactly at the center. -/
theorem C8_degenerate_center_fallback_witness :
    pAtCenter.position.distanceTo Vec3.zero ≤ 0.01 ∧
    radialDirection Vec3.zero pAtCenter = pAtCenter.direction.normalize ∧
    ((⟨3, 4, 0⟩ : Vec3).normalize = Vec3.zero ∨ (⟨3, 4, 0⟩ : Vec3).normalize.length = 1) := by
  have hd : pAtCenter.position.distanceTo Vec3.zero ≤ 0.01 := by
    rw [Vec3.distanceTo, show pAtCenter.position.sub Vec3.zero = Vec3.zero by ext <;> simp [pAtCenter],
      Vec3.length_zero]
    norm_num
  obtain ⟨h1, h2, -⟩ := C8_degenerate_center_fallback Vec3.zero pAtCenter ⟨3, 4, 0⟩ hd
  exact ⟨hd, h1, h2⟩

namespace OptimizedParticleSystem

theorem centerDist_nonneg (pos : Vec3) (centers : List Vec3) (j : ℕ) :
    0 ≤ centerDist pos centers j := Vec3.length_nonneg _

/-- Specification of the nearest-center scan from a seeded accumulator:
the result records the distance of its own index, stays at or below the
seed distance, and is at or below the distance of every scanned index. -/
theorem nearestScan_spec (pos : Vec3) (centers : List Vec3) :
    ∀ (l : List ℕ) (bi : ℕ) (m : ℝ), m = centerDist pos centers bi →
      ∃ ri rm, nearestScan pos centers l (bi, some m) = (ri, some rm) ∧
        rm = centerDist pos centers ri ∧ (ri = bi ∨ ri ∈ l) ∧ rm ≤ m ∧
        ∀ j ∈ l, rm ≤ centerDist pos centers j := by
  intro l
  induction l with
  | nil =>
    intro bi m hm
    exact ⟨bi, m, rfl, hm, Or.inl rfl, le_refl m, by simp⟩
  | cons j rest ih =>
    intro bi m hm
    by_cases hc : centerDist pos centers j < m
    · have hstep : nearestScan pos centers (j :: rest) (bi, some m) =
          nearestScan pos centers rest (j, some (centerDist pos centers j)) := by
        simp only [nearestScan]
        rw [if_pos hc]
      obtain ⟨ri, rm, heq, hrm, hmem, hle, hall⟩ := ih j (centerDist pos centers j) rfl
      refine ⟨ri, rm, hstep.trans heq, hrm, ?_, ?_, ?_⟩
      · rcases hmem with h | h
        · exact Or.inr (h ▸ List.mem_cons_self j rest)
        · exact Or.inr (List.mem_cons_of_mem j h)
      · exact le_trans hle hc.le
      · intro j' hj'
        rcases List.mem_cons.mp hj' with h | h
        · exact h ▸ hle
        · exact hall j' h
    · have hstep : nearestScan pos centers (j :: rest) (bi, some m) =
          nearestScan pos centers rest (bi, some m) := by
        simp only [nearestScan]
        rw [if_neg hc]
      obtain ⟨ri, rm, heq, hrm, hmem, hle, hall⟩ := ih bi m hm
      refine ⟨ri, rm, hstep.trans heq, hrm, ?_, hle, ?_⟩
      · rcases hmem with h | h
        · exact Or.inl h
        · exact Or.inr (List.mem_cons_of_mem j h)
      · intro j' hj'
        rcases List.mem_cons.mp hj' with h | h
        · exact h ▸ le_trans hle (not_lt.mp hc)
        · exact hall j' h

/-- With at least one candidate center, the unassigned branch picks a
valid index realizing the minimum distance. -/
theorem nearestCenterIndex_spec (pos : Vec3) (centers : List Vec3)
    (hne : centers ≠ []) :
    nearestCenterIndex pos centers < centers.length ∧
      ∀ j < centers.length,
        centerDist pos centers (nearestCenterIndex pos centers) ≤ centerDist pos centers j := by
  obtain ⟨n, hn⟩ : ∃ n, centers.length = n + 1 :=
    ⟨centers.length - 1, (Nat.succ_pred_eq_of_pos (List.length_pos.mpr hne)).symm⟩
  have hrange : List.range centers.length = 0 :: (List.range n).map (· + 1) := by
    rw [hn, List.range_succ_eq_map]
  have hstart : nearestScan pos centers (List.range centers.length) (0, none) =
      nearestScan pos centers ((List.range n).map (· + 1))
        (0, some (centerDist pos centers 0)) := by
    rw [hrange]
    simp only [nearestScan]
  obtain ⟨ri, rm, heq, hrm, hmem, hle, hall⟩ :=
    nearestScan_spec pos centers ((List.range n).map (· + 1)) 0 (centerDist pos centers 0) rfl
  have hri : nearestCenterIndex pos centers = ri := by
    unfold nearestCenterIndex
    rw [hstart, heq]
  constructor
  · rw [hri, hn]
    rcases hmem with h | h
    · omega
    · obtain ⟨a, ha, rfl⟩ := List.mem_map.mp h
      have := List.mem_range.mp ha
      omega
  · intro j hj
    rw [hri, ← hrm]
    rcases Nat.eq_zero_or_pos j with h0 | hpos
    · exact h0 ▸ hle
    · apply hall
      apply List.mem_map.mpr
      refine ⟨j - 1, List.mem_range.mpr ?_, ?_⟩
      · omega
      · omega

/-- A successful reassignment scan returns a strictly closer rival index
from the scanned list. -/
theorem findCloserCenter_some (pos : Vec3) (centers : List Vec3) (k : ℕ) (cd : ℝ) :
    ∀ (l : List ℕ) (j : ℕ), findCloserCenter pos centers k cd l = some j →
      j ∈ l ∧ j ≠ k ∧ centerDist pos centers j < cd * 0.8 := by
  intro l
  induction l with
  | nil => intro j h; simp [findCloserCenter] at h
  | cons a rest ih =>
    intro j h
    by_cases hc : a ≠ k ∧ centerDist pos centers a < cd * 0.8
    · rw [findCloserCenter, if_pos hc] at h
      have haj : a = j := by injection h
      subst haj
      exact ⟨List.mem_cons_self a rest, hc.1, hc.2⟩
    · rw [findCloserCenter, if_neg hc] at h
      obtain ⟨hmem, hne, hlt⟩ := ih j h
      exact ⟨List.mem_cons_of_mem a hmem, hne, hlt⟩

/-- A failed reassignment scan certifies no scanned rival is 20 percent
closer. -/
theorem findCloserCenter_none (pos : Vec3) (centers : List Vec3) (k : ℕ) (cd : ℝ) :
    ∀ (l : List ℕ), findCloserCenter pos centers k cd l = none →
      ∀ j ∈ l, ¬(j ≠ k ∧ centerDist pos centers j < cd * 0.8) := by
  intro l
  induction l with
  | nil => intro _ j hj; simp at hj
  | cons a rest ih =>
    intro h j hj
    by_cases hc : a ≠ k ∧ centerDist pos centers a < cd * 0.8
    · rw [findCloserCenter, if_pos hc] at h
      exact absurd h (by simp)
    · rw [findCloserCenter, if_neg hc] at h
      rcases List.mem_cons.mp hj with rfl | hmem
      · exact hc
      · exact ih h j hmem

/-- Unfolding of the assignment step for an assigned particle. -/
theorem assignCenterStep_some (centers : List Vec3) (p : Particle) (k : ℕ)
    (h : p.assignedCenterIndex = some k) :
    assignCenterStep centers p =
      if k ≥ centers.length then nearestCenterIndex p.position centers
      else
        match findCloserCenter p.position centers k (centerDist p.position centers k)
            (List.range centers.length) with
        | some j => j
        | none => k := by
  unfold assignCenterStep
  rw [h]

end OptimizedParticleSystem

/-- Claim C4: in needle-swarm mode with at least one hand, the assignment
step reassigns a validly assigned particle if and only if some other
center is at least 20 percent closer (`newDist < currentDist * 0.8`); in
particular rivals that are merely 5 percent closer (distance at least
`0.95` of the current one) never cause reassignment; and a particle whose
`assignedCenterIndex` is undefined or out of range is assigned to a
nearest center. -/
theorem C4_assignment_hysteresis (centers : List Vec3) (p : Particle) :
    (∀ k, p.assignedCenterIndex = some k → k < centers.length →
      ((assignCenterStep centers p ≠ k) ↔
        ∃ j, j < centers.length ∧ j ≠ k ∧
          centerDist p.position centers j < centerDist p.position centers k * 0.8)) ∧
    (∀ k, p.assignedCenterIndex = some k → k < centers.length →
      (∀ j, j < centers.length → j ≠ k →
        0.95 * centerDist p.position centers k ≤ centerDist p.position centers j) →
      assignCenterStep centers p = k) ∧
    ((p.assignedCenterIndex = none ∨
        (∃ k, p.assignedCenterIndex = some k ∧ ¬ k < centers.length)) →
      centers ≠ [] →
      assignCenterStep centers p < centers.length ∧
      ∀ j < centers.length,
        centerDist p.position centers (assignCenterStep centers p) ≤
          centerDist p.position centers j) := by
  have hiff : ∀ k, p.assignedCenterIndex = some k → k < centers.length →
      ((assignCenterStep centers p ≠ k) ↔
        ∃ j, j < centers.length ∧ j ≠ k ∧
          centerDist p.position centers j < centerDist p.position centers k * 0.8) := by
    intro k hk hklt
    rw [assignCenterStep_some centers p k hk, if_neg (not_le.mpr hklt)]
    rcases hfind : findCloserCenter p.position centers k
        (centerDist p.position centers k) (List.range centers.length) with _ | j
    · simp only []
      constructor
      · intro h; exact absurd rfl h
      · rintro ⟨j, hj, hjk, hlt⟩ -
        exact absurd ⟨hjk, hlt⟩
          (findCloserCenter_none p.position centers k _ _ hfind j (List.mem_range.mpr hj))
    · simp only []
      obtain ⟨hmem, hjk, hlt⟩ := findCloserCenter_some p.position centers k _ _ j hfind
      constructor
      · intro _
        exact ⟨j, List.mem_range.mp hmem, hjk, hlt⟩
      · intro _
        exact hjk
  refine ⟨hiff, ?_, ?_⟩
  · intro k hk hklt hfar
    by_contra hne
    obtain ⟨j, hj, hjk, hlt⟩ := (hiff k hk hklt).mp hne
    have h95 := hfar j hj hjk
    have h0 := centerDist_nonneg p.position centers k
    nlinarith
  · intro hcase hne
    have hnear : assignCenterStep centers p = nearestCenterIndex p.position centers := by
      rcases hcase with h | ⟨k, hk, hklt⟩
      · unfold assignCenterStep
        rw [h]
      · rw [assignCenterStep_some centers p k hk, if_pos (not_lt.mp hklt)]
    rw [hnear]
    exact nearestCenterIndex_spec p.position centers hne

/-- Two-hand centers used in the C4 witness. -/
def centersPair : List Vec3 := [Vec3.zero, ⟨10, 0, 0⟩]

/-- Particle assigned to center 0 but 20 percent closer to center 1. -/
def pAssigned : Particle :=
  { position := ⟨6, 0, 0⟩, velocity := Vec3.zero, direction := ⟨1, 0, 0⟩,
    groupIndex := 0, assignedCenterIndex := some 0 }

/-- Witness for C4: a rival center at distance 4 against a current
distance of 6 (ratio below 0.8) triggers reassignment. -/
theorem C4_assignment_hysteresis_witness :
    pAssigned.assignedCenterIndex = some 0 ∧ 0 < centersPair.length ∧
    assignCenterStep centersPair pAssigned ≠ 0 := by
  have e0 : centerDist pAssigned.position centersPair 0 = 6 := by
    unfold centerDist
    rw [show centersPair.getD 0 Vec3.zero = Vec3.zero from rfl, Vec3.distanceTo]
    rw [show pAssigned.position.sub Vec3.zero = ⟨6, 0, 0⟩ by ext <;> simp [pAssigned]]
    exact Vec3.length_eval (l := 6) (by norm_num [Vec3.lengthSq]) (by norm_num)
  have e1 : centerDist pAssigned.position centersPair 1 = 4 := by
    unfold centerDist
    rw [show centersPair.getD 1 Vec3.zero = (⟨10, 0, 0⟩ : Vec3) from rfl, Vec3.distanceTo]
    rw [show pAssigned.position.sub ⟨10, 0, 0⟩ = ⟨-4, 0, 0⟩ by ext <;> simp [pAssigned] <;> norm_num]
    exact Vec3.length_eval (l := 4) (by norm_num [Vec3.lengthSq]) (by norm_num)
  have hiff := (C4_assignment_hysteresis centersPair pAssigned).1 0 rfl (by norm_num [centersPair])
  refine ⟨rfl, by norm_num [centersPair], hiff.mpr ⟨1, ?_, ?_, ?_⟩⟩
  · norm_num [centersPair]
  · norm_num
  · rw [e0, e1]
    norm_num

/-- A conditional accumulation loop equals the starting value plus the sum
of the guarded contributions. -/
theorem foldl_add_ite {α : Type} (P : α → Prop) [DecidablePred P] (f : α → Vec3) :
    ∀ (l : List α) (a : Vec3),
      l.foldl (fun acc x => if P x then acc.add (f x) else acc) a =
        a + (l.map fun x => if P x then f x else 0).sum := by
  intro l
  induction l with
  | nil => intro a; simp
  | cons x rest ih =>
    intro a
    simp only [List.foldl_cons, List.map_cons, List.sum_cons]
    by_cases h : P x
    · rw [if_pos h, if_pos h, ih, Vec3.add_eq, add_assoc]
    · rw [if_neg h, if_neg h, ih, zero_add]

/-- Claim C6: in responsive mode each tick accumulates, for every hand
whose palm lies strictly within `interactionRadius` of the particle, a
force toward that palm of magnitude
`attractionStrength * (1 - dist/interactionRadius)` (zero at the radius
boundary, maximal toward zero distance), plus an independent random
jitter in `[-0.025, 0.025]` per axis; the particle then integrates as
`velocity' = (velocity + totalForce) * viscosity` and
`position' = position + velocity'` (followed by the boundary clamp). -/
theorem C6_responsive_force_accumulation (cfg : ParticleSystemConfig)
    (controls : List HandControl) (particles : List Particle) (index : ℕ)
    (dt r1 r2 r3 : ℝ) (p : Particle) (iR aS : ℝ)
    (hiR : cfg.interactionRadius = some iR) (haS : cfg.attractionStrength = some aS)
    (hb : cfg.behavior = Behavior.responsive)
    (hr1 : 0 ≤ r1 ∧ r1 ≤ 1) (hr2 : 0 ≤ r2 ∧ r2 ≤ 1) (hr3 : 0 ≤ r3 ∧ r3 ≤ 1) :
    (handleResponsiveBehavior cfg controls p.position r1 r2 r3 =
      (controls.map fun c =>
        if (c.palm.sub p.position).length < iR then attractionTerm cfg p.position c else 0).sum +
        jitterVec r1 r2 r3) ∧
    (∀ c : HandControl, 0 < (c.palm.sub p.position).length →
      attractionTerm cfg p.position c =
        (c.palm.sub p.position).multiplyScalar
          (aS * (1 - (c.palm.sub p.position).length / iR) /
            (c.palm.sub p.position).length) ∧
      (0 ≤ aS * (1 - (c.palm.sub p.position).length / iR) →
        (attractionTerm cfg p.position c).length =
          aS * (1 - (c.palm.sub p.position).length / iR))) ∧
    (|(jitterVec r1 r2 r3).x| ≤ 0.025 ∧ |(jitterVec r1 r2 r3).y| ≤ 0.025 ∧
      |(jitterVec r1 r2 r3).z| ≤ 0.025) ∧
    (updateResponsiveCohesive cfg controls particles index dt r1 r2 r3 p =
      applyBoundariesP cfg
        (integrate cfg (handleResponsiveBehavior cfg controls p.position r1 r2 r3) p)) ∧
    (∀ F : Vec3, (integrate cfg F p).velocity = (p.velocity.add F).multiplyScalar cfg.viscosity ∧
      (integrate cfg F p).position =
        p.position.add ((p.velocity.add F).multiplyScalar cfg.viscosity)) := by
  refine ⟨?_, ?_, ?_, ?_, fun F => ⟨rfl, rfl⟩⟩
  · unfold handleResponsiveBehavior
    rw [foldl_add_ite (fun c : HandControl =>
        (c.palm.sub p.position).length < cfg.interactionRadius.getD 0)
      (fun c => attractionTerm cfg p.position c) controls Vec3.zero]
    rw [← Vec3.zero_eq, zero_add, Vec3.add_eq]
    simp only [hiR, Option.getD_some]
  · intro c hpos
    have hne : c.palm.sub p.position ≠ Vec3.zero := by
      intro e
      rw [e, Vec3.length_zero] at hpos
      exact lt_irrefl 0 hpos
    constructor
    · unfold attractionTerm
      rw [haS, hiR]
      simp only [Option.getD_some]
      rw [Vec3.normalize_of_ne_zero hne, Vec3.multiplyScalar_comp]
      congr 1
      field_simp
    · intro hs
      unfold attractionTerm
      rw [haS, hiR]
      simp only [Option.getD_some]
      rw [Vec3.length_multiplyScalar, Vec3.normalize_length_of_ne_zero hne, mul_one,
        abs_of_nonneg hs]
  · refine ⟨?_, ?_, ?_⟩ <;> simp only [jitterVec] <;> rw [abs_le] <;> constructor <;> nlinarith [hr1.1, hr1.2, hr2.1, hr2.2, hr3.1, hr3.2]
  · unfold updateResponsiveCohesive
    rw [if_pos hb]

/-- The responsive instance configuration built by
`OptimizedLiquidSimulation` (canvas `three-canvas1`). -/
def responsiveCfg : ParticleSystemConfig :=
  { count := 1000, boundary := 25, viscosity := 0.85, behavior := Behavior.responsive,
    attractionStrength := some 1.5, interactionRadius := some 15 }

/-- Witness for C6 on the repository's responsive configuration with one
hand at the origin and centered random draws. -/
theorem C6_responsive_force_accumulation_witness :
    responsiveCfg.interactionRadius = some 15 ∧
    responsiveCfg.attractionStrength = some 1.5 ∧
    responsiveCfg.behavior = Behavior.responsive ∧
    handleResponsiveBehavior responsiveCfg [⟨⟨0, 0, 0⟩⟩] (⟨3, 0, 0⟩ : Vec3) 0.5 0.5 0.5 =
      (([⟨⟨0, 0, 0⟩⟩] : List HandControl).map fun c =>
        if (c.palm.sub (⟨3, 0, 0⟩ : Vec3)).length < 15
        then attractionTerm responsiveCfg ⟨3, 0, 0⟩ c else 0).sum + jitterVec 0.5 0.5 0.5 := by
  have h := C6_responsive_force_accumulation responsiveCfg [⟨⟨0, 0, 0⟩⟩] [] 0 0 0.5 0.5 0.5
    { position := ⟨3, 0, 0⟩, velocity := Vec3.zero, direction := ⟨1, 0, 0⟩,
      groupIndex := 0, assignedCenterIndex := none }
    15 1.5 rfl rfl rfl (by norm_num) (by norm_num) (by norm_num)
  exact ⟨rfl, rfl, rfl, h.1⟩

/-- Claim C7: in cohesive mode each particle's total force is
`-0.01 * position` plus, for every sampled other particle at stride 10
through the store (indices 0, 10, 20, ..., the particle's own index
excluded) whose distance is strictly under `cohesionRadius`, a force
toward that particle of magnitude `cohesionStrength * (1 - dist/cohesionRadius)`;
integration and boundary handling are the same as responsive mode. -/
theorem C7_cohesive_force_accumulation (cfg : ParticleSystemConfig)
    (controls : List HandControl) (particles : List Particle) (index : ℕ)
    (dt r1 r2 r3 : ℝ) (p : Particle) (cR cS : ℝ)
    (hcR : cfg.cohesionRadius = some cR) (hcS : cfg.cohesionStrength = some cS)
    (hb : cfg.behavior = Behavior.cohesive) :
    (handleCohesiveBehavior cfg particles index p.position =
      p.position.multiplyScalar (-0.01) +
      (particles.enum.map fun ic =>
        if ic.1 % 10 = 0 ∧ ic.1 ≠ index ∧ (ic.2.position.sub p.position).length < cR
        then cohesionTerm cfg p.position ic.2 else 0).sum) ∧
    (∀ other : Particle, 0 < (other.position.sub p.position).length →
      cohesionTerm cfg p.position other =
        (other.position.sub p.position).multiplyScalar
          (cS * (1 - (other.position.sub p.position).length / cR) /
            (other.position.sub p.position).length) ∧
      (0 ≤ cS * (1 - (other.position.sub p.position).length / cR) →
        (cohesionTerm cfg p.position other).length =
          cS * (1 - (other.position.sub p.position).length / cR))) ∧
    (updateResponsiveCohesive cfg controls particles index dt r1 r2 r3 p =
      applyBoundariesP cfg
        (integrate cfg (handleCohesiveBehavior cfg particles index p.position) p)) := by
  refine ⟨?_, ?_, ?_⟩
  · unfold handleCohesiveBehavior
    rw [foldl_add_ite (fun ic : ℕ × Particle =>
        ic.1 % 10 = 0 ∧ ic.1 ≠ index ∧
          (ic.2.position.sub p.position).length < cfg.cohesionRadius.getD 0)
      (fun ic => cohesionTerm cfg p.position ic.2) particles.enum
      (p.position.multiplyScalar (-0.01))]
    simp only [hcR, Option.getD_some]
  · intro other hpos
    have hne : other.position.sub p.position ≠ Vec3.zero := by
      intro e
      rw [e, Vec3.length_zero] at hpos
      exact lt_irrefl 0 hpos
    constructor
    · unfold cohesionTerm
      rw [hcS, hcR]
      simp only [Option.getD_some]
      rw [Vec3.normalize_of_ne_zero hne, Vec3.multiplyScalar_comp]
      congr 1
      field_simp
    · intro hs
      unfold cohesionTerm
      rw [hcS, hcR]
      simp only [Option.getD_some]
      rw [Vec3.length_multiplyScalar, Vec3.normalize_length_of_ne_zero hne, mul_one,
        abs_of_nonneg hs]
  · unfold updateResponsiveCohesive
    rw [if_neg (by rw [hb]; exact fun h => Behavior.noConfusion h)]

/-- The cohesive instance configuration built by
`OptimizedLiquidSimulation` (canvas `three-canvas2`). -/
def cohesiveCfg : ParticleSystemConfig :=
  { count := 800, boundary := 20, viscosity := 0.95, behavior := Behavior.cohesive,
    cohesionStrength := some 0.3, cohesionRadius := some 5 }

/-- Witness for C7 on the repository's cohesive configuration with a
two-particle store. -/
theorem C7_cohesive_force_accumulation_witness :
    cohesiveCfg.cohesionRadius = some 5 ∧
    cohesiveCfg.cohesionStrength = some 0.3 ∧
    cohesiveCfg.behavior = Behavior.cohesive ∧
    handleCohesiveBehavior cohesiveCfg [pAssigned, pOnShell] 1 (⟨1, 0, 0⟩ : Vec3) =
      (⟨1, 0, 0⟩ : Vec3).multiplyScalar (-0.01) +
      (([pAssigned, pOnShell] : List Particle).enum.map fun ic =>
        if ic.1 % 10 = 0 ∧ ic.1 ≠ 1 ∧ (ic.2.position.sub (⟨1, 0, 0⟩ : Vec3)).length < 5
        then cohesionTerm cohesiveCfg ⟨1, 0, 0⟩ ic.2 else 0).sum := by
  have h := C7_cohesive_force_accumulation cohesiveCfg [] [pAssigned, pOnShell] 1 0 0.5 0.5 0.5
    { position := ⟨1, 0, 0⟩, velocity := Vec3.zero, direction := ⟨1, 0, 0⟩,
      groupIndex := 0, assignedCenterIndex := none }
    5 0.3 rfl rfl rfl
  exact ⟨rfl, rfl, rfl, h.1⟩

namespace Vec3

/-- Reflecting a vector through the origin preserves its length. -/
theorem length_zero_sub (a : Vec3) : (Vec3.zero.sub a).length = a.length := by
  unfold length lengthSq
  congr 1
  simp

end Vec3

/-- The responsive scenario configuration of claim C9: `count = 4`,
`boundary = 10`, `interactionRadius = 5`, `attractionStrength = 2`
(viscosity `0.85` as in the repository's responsive instance). -/
def scenarioCfg : ParticleSystemConfig :=
  { count := 4, boundary := 10, viscosity := 0.85, behavior := Behavior.responsive,
    attractionStrength := some 2, interactionRadius := some 5 }

/-- Counterexample particle for C9: within distance `5` of the origin but
with an outward initial velocity (reachable from `initParticles`, whose
velocities range over `(-0.4, 0.4)` per axis). -/
def pScenario : Particle :=
  { position := ⟨4.9, 0, 0⟩, velocity := ⟨0.3992, 0, 0⟩, direction := ⟨1, 0, 0⟩,
    groupIndex := 0, assignedCenterIndex := none }

/-- The total responsive force on `pScenario` with one hand at the origin
and all three random draws equal to `0.999`. -/
theorem force_pScenario :
    handleResponsiveBehavior scenarioCfg [⟨⟨0, 0, 0⟩⟩] (⟨4.9, 0, 0⟩ : Vec3) 0.999 0.999 0.999 =
      ⟨-0.01505, 0.02495, 0.02495⟩ := by
  unfold handleResponsiveBehavior attractionTerm
  simp only [List.foldl_cons, List.foldl_nil]
  rw [show ((⟨⟨0, 0, 0⟩⟩ : HandControl).palm.sub ⟨4.9, 0, 0⟩) = (⟨-4.9, 0, 0⟩ : Vec3) by
    ext <;> simp <;> norm_num]
  rw [Vec3.length_eval (l := 4.9) (by norm_num [Vec3.lengthSq]) (by norm_num)]
  rw [show scenarioCfg.interactionRadius.getD 0 = 5 from rfl,
    show scenarioCfg.attractionStrength.getD 0 = 2 from rfl,
    show scenarioCfg.interactionRadius.getD 1 = 5 from rfl]
  rw [if_pos (by norm_num)]
  rw [Vec3.normalize_eval (l := 4.9) (by norm_num [Vec3.lengthSq]) (by norm_num)]
  ext <;> simp [jitterVec] <;> norm_num

/-- The integrated (pre-boundary) state of `pScenario` under that force. -/
theorem integrate_pScenario :
    (integrate scenarioCfg ⟨-0.01505, 0.02495, 0.02495⟩ pScenario).position =
        ⟨5.2265275, 0.0212075, 0.0212075⟩ ∧
    (integrate scenarioCfg ⟨-0.01505, 0.02495, 0.02495⟩ pScenario).velocity =
        ⟨0.3265275, 0.0212075, 0.0212075⟩ := by
  constructor
  · show (pScenario.position.add ((pScenario.velocity.add ⟨-0.01505, 0.02495, 0.02495⟩).multiplyScalar scenarioCfg.viscosity)) = _
    ext <;> simp [pScenario] <;> norm_num [show scenarioCfg.viscosity = 0.85 from rfl]
  · show ((pScenario.velocity.add ⟨-0.01505, 0.02495, 0.02495⟩).multiplyScalar scenarioCfg.viscosity) = _
    ext <;> simp [pScenario] <;> norm_num [show scenarioCfg.viscosity = 0.85 from rfl]

/-- Counterexample to claim C9 as stated: in the scenario instance
(`boundary = 10`, one hand at the origin, `interactionRadius = 5`,
`attractionStrength = 2`), the particle `pScenario` starts at distance
`4.9 < 5` from the origin, yet after one `deltaTime = 1/60` tick its
velocity dotted with the vector from its position to the origin is about
`-1.6`: the attraction force (`0.04`) is overwhelmed by the outward
initial velocity (`0.3992`) and an adverse jitter draw, so the claimed
inward velocity component fails. -/
theorem C9_scenario_counterexample :
    pScenario.position.distanceTo Vec3.zero < 5 ∧
    ¬ (0 < ((updateResponsiveCohesive scenarioCfg [⟨⟨0, 0, 0⟩⟩] [] 0 (1 / 60)
          0.999 0.999 0.999 pScenario).velocity).dot (Vec3.zero.sub pScenario.position)) := by
  constructor
  · rw [Vec3.distanceTo,
      show pScenario.position.sub Vec3.zero = (⟨4.9, 0, 0⟩ : Vec3) by ext <;> simp [pScenario],
      Vec3.length_eval (l := 4.9) (by norm_num [Vec3.lengthSq]) (by norm_num)]
    norm_num
  · have hvel : (updateResponsiveCohesive scenarioCfg [⟨⟨0, 0, 0⟩⟩] [] 0 (1 / 60)
        0.999 0.999 0.999 pScenario).velocity = ⟨0.3265275, 0.0212075, 0.0212075⟩ := by
      show (applyBoundariesP scenarioCfg (integrate scenarioCfg
          (handleResponsiveBehavior scenarioCfg [⟨⟨0, 0, 0⟩⟩] pScenario.position
            0.999 0.999 0.999) pScenario)).velocity = _
      rw [show pScenario.position = (⟨4.9, 0, 0⟩ : Vec3) from rfl, force_pScenario]
      show (applyBoundaries scenarioCfg.boundary
        (integrate scenarioCfg ⟨-0.01505, 0.02495, 0.02495⟩ pScenario).position
        (integrate scenarioCfg ⟨-0.01505, 0.02495, 0.02495⟩ pScenario).velocity).2 = _
      rw [integrate_pScenario.1, integrate_pScenario.2,
        show scenarioCfg.boundary = (10 : ℝ) from rfl]
      ext
      · show clampVelAxis 10 5.2265275 0.3265275 = _
        unfold clampVelAxis
        rw [if_neg (by norm_num [abs_le])]
      · show clampVelAxis 10 0.0212075 0.0212075 = _
        unfold clampVelAxis
        rw [if_neg (by norm_num [abs_le])]
      · show clampVelAxis 10 0.0212075 0.0212075 = _
        unfold clampVelAxis
        rw [if_neg (by norm_num [abs_le])]
    rw [hvel, show Vec3.zero.sub pScenario.position = (⟨-4.9, 0, 0⟩ : Vec3) by
      ext <;> simp [pScenario]]
    rw [show ((⟨0.3265275, 0.0212075, 0.0212075⟩ : Vec3).dot ⟨-4.9, 0, 0⟩) =
      -1.59998475 by simp [Vec3.dot]; norm_num]
    norm_num

namespace Vec3

@[simp] theorem zero_dot (a : Vec3) : (Vec3.zero).dot a = 0 := by
  simp [dot]

end Vec3

/-- Claim C9 (amended): in a responsive instance with `boundary = 10`,
`interactionRadius = 5`, `attractionStrength = 2`, positive viscosity and
one hand with palm at the origin, a particle at distance `0 < d < 5` from
the origin acquires, after one tick, a velocity whose dot product with
the vector from its pre-tick position to the origin is positive — PROVIDED
the inward attraction `2 * (1 - d/5) * d` strictly dominates the radial
contribution of the pre-tick velocity and the jitter draw, and the
integrated position stays inside the boundary cube (the claim as stated
omits these provisos and fails for outward initial velocities, see the
counterexample). -/
theorem C9_scenario_amended (cfg : ParticleSystemConfig)
    (particles : List Particle) (index : ℕ) (dt r1 r2 r3 : ℝ) (p : Particle)
    (hb : cfg.behavior = Behavior.responsive)
    (hbd : cfg.boundary = 10)
    (hiR : cfg.interactionRadius = some 5)
    (haS : cfg.attractionStrength = some 2)
    (hvisc : 0 < cfg.viscosity)
    (hd0 : 0 < p.position.length)
    (hd5 : p.position.length < 5)
    (hdom : 0 < (p.velocity.add (jitterVec r1 r2 r3)).dot (Vec3.zero.sub p.position) +
      2 * (1 - p.position.length / 5) * p.position.length)
    (hnb : |(integrate cfg (handleResponsiveBehavior cfg [⟨⟨0, 0, 0⟩⟩] p.position r1 r2 r3)
        p).position.x| ≤ 10 ∧
      |(integrate cfg (handleResponsiveBehavior cfg [⟨⟨0, 0, 0⟩⟩] p.position r1 r2 r3)
        p).position.y| ≤ 10 ∧
      |(integrate cfg (handleResponsiveBehavior cfg [⟨⟨0, 0, 0⟩⟩] p.position r1 r2 r3)
        p).position.z| ≤ 10) :
    0 < ((updateResponsiveCohesive cfg [⟨⟨0, 0, 0⟩⟩] particles index dt r1 r2 r3 p).velocity).dot
      (Vec3.zero.sub p.position) := by
  have hdu : (Vec3.zero.sub p.position).length = p.position.length :=
    Vec3.length_zero_sub p.position
  have hune : Vec3.zero.sub p.position ≠ Vec3.zero := by
    intro e
    rw [e, Vec3.length_zero] at hdu
    rw [← hdu] at hd0
    exact lt_irrefl 0 hd0
  have hcond : (((⟨⟨0, 0, 0⟩⟩ : HandControl).palm.sub p.position).length <
      cfg.interactionRadius.getD 0) := by
    rw [hiR]
    show (Vec3.zero.sub p.position).length < (5 : ℝ)
    rw [hdu]
    exact hd5
  have hF : handleResponsiveBehavior cfg [⟨⟨0, 0, 0⟩⟩] p.position r1 r2 r3 =
      (Vec3.zero.add (attractionTerm cfg p.position ⟨⟨0, 0, 0⟩⟩)).add (jitterVec r1 r2 r3) := by
    unfold handleResponsiveBehavior
    simp only [List.foldl_cons, List.foldl_nil]
    rw [if_pos hcond]
  have hT : attractionTerm cfg p.position ⟨⟨0, 0, 0⟩⟩ =
      ((Vec3.zero.sub p.position).normalize).multiplyScalar
        (2 * (1 - p.position.length / 5)) := by
    unfold attractionTerm
    rw [haS, hiR]
    simp only [Option.getD_some]
    rw [show ((⟨⟨0, 0, 0⟩⟩ : HandControl).palm.sub p.position) = Vec3.zero.sub p.position
      from rfl, hdu]
  have huu : (Vec3.zero.sub p.position).dot (Vec3.zero.sub p.position) =
      p.position.length * p.position.length := by
    rw [← Vec3.lengthSq_eq_dot, ← Vec3.length_sq_eq, hdu]
  have hTu : (attractionTerm cfg p.position ⟨⟨0, 0, 0⟩⟩).dot (Vec3.zero.sub p.position) =
      2 * (1 - p.position.length / 5) * p.position.length := by
    rw [hT, Vec3.multiplyScalar_dot, Vec3.normalize_of_ne_zero hune,
      Vec3.multiplyScalar_dot, huu, hdu]
    field_simp
  have hvel : (updateResponsiveCohesive cfg [⟨⟨0, 0, 0⟩⟩] particles index dt r1 r2 r3 p).velocity =
      (p.velocity.add (handleResponsiveBehavior cfg [⟨⟨0, 0, 0⟩⟩] p.position r1 r2 r3)
        ).multiplyScalar cfg.viscosity := by
    simp only [updateResponsiveCohesive]
    rw [if_pos hb]
    show (applyBoundaries cfg.boundary
      (integrate cfg (handleResponsiveBehavior cfg [⟨⟨0, 0, 0⟩⟩] p.position r1 r2 r3) p).position
      (integrate cfg (handleResponsiveBehavior cfg [⟨⟨0, 0, 0⟩⟩] p.position r1 r2 r3) p).velocity
      ).2 = _
    rw [hbd]
    ext
    · show clampVelAxis 10 _ _ = _
      unfold clampVelAxis
      rw [if_neg (not_lt.mpr hnb.1)]
      rfl
    · show clampVelAxis 10 _ _ = _
      unfold clampVelAxis
      rw [if_neg (not_lt.mpr hnb.2.1)]
      rfl
    · show clampVelAxis 10 _ _ = _
      unfold clampVelAxis
      rw [if_neg (not_lt.mpr hnb.2.2)]
      rfl
  rw [hvel, Vec3.multiplyScalar_dot]
  apply mul_pos hvisc
  rw [Vec3.add_dot, hF, Vec3.add_dot, Vec3.add_dot, Vec3.zero_dot, hTu]
  rw [Vec3.add_dot] at hdom
  linarith

/-- Witness particle for the amended C9: at rest at distance 4 from the
origin. -/
def pInward : Particle :=
  { position := ⟨4, 0, 0⟩, velocity := Vec3.zero, direction := ⟨1, 0, 0⟩,
    groupIndex := 0, assignedCenterIndex := none }

/-- Centered random draws produce zero jitter. -/
theorem jitter_half : jitterVec 0.5 0.5 0.5 = Vec3.zero := by
  ext <;> simp [jitterVec]

/-- The length of the witness position. -/
theorem pInward_length : pInward.position.length = 4 := by
  rw [show pInward.position = (⟨4, 0, 0⟩ : Vec3) from rfl]
  exact Vec3.length_eval (l := 4) (by norm_num [Vec3.lengthSq]) (by norm_num)

/-- The total responsive force on `pInward` in the scenario instance. -/
theorem force_pInward :
    handleResponsiveBehavior scenarioCfg [⟨⟨0, 0, 0⟩⟩] pInward.position 0.5 0.5 0.5 =
      ⟨-0.4, 0, 0⟩ := by
  unfold handleResponsiveBehavior attractionTerm
  simp only [List.foldl_cons, List.foldl_nil]
  rw [show ((⟨⟨0, 0, 0⟩⟩ : HandControl).palm.sub pInward.position) = (⟨-4, 0, 0⟩ : Vec3) by
    ext <;> simp [pInward] <;> norm_num]
  rw [Vec3.length_eval (l := 4) (by norm_num [Vec3.lengthSq]) (by norm_num)]
  rw [show scenarioCfg.interactionRadius.getD 0 = 5 from rfl,
    show scenarioCfg.attractionStrength.getD 0 = 2 from rfl,
    show scenarioCfg.interactionRadius.getD 1 = 5 from rfl]
  rw [if_pos (by norm_num)]
  rw [Vec3.normalize_eval (l := 4) (by norm_num [Vec3.lengthSq]) (by norm_num)]
  ext <;> simp [jitterVec] <;> norm_num

/-- Witness for the amended C9: at the concrete resting particle the
dominance and in-bounds hypotheses hold and the post-tick velocity points
toward the origin. -/
theorem C9_scenario_amended_witness :
    0 < pInward.position.length ∧ pInward.position.length < 5 ∧
    0 < ((updateResponsiveCohesive scenarioCfg [⟨⟨0, 0, 0⟩⟩] [] 0 (1 / 60)
        0.5 0.5 0.5 pInward).velocity).dot (Vec3.zero.sub pInward.position) := by
  have hd0 : 0 < pInward.position.length := by rw [pInward_length]; norm_num
  have hd5 : pInward.position.length < 5 := by rw [pInward_length]; norm_num
  have hdom : 0 < (pInward.velocity.add (jitterVec 0.5 0.5 0.5)).dot
      (Vec3.zero.sub pInward.position) +
      2 * (1 - pInward.position.length / 5) * pInward.position.length := by
    rw [jitter_half, pInward_length,
      show (pInward.velocity.add Vec3.zero).dot (Vec3.zero.sub pInward.position) = 0 by
        simp [Vec3.dot, Vec3.add, Vec3.sub, pInward]]
    norm_num
  have hnb : |(integrate scenarioCfg (handleResponsiveBehavior scenarioCfg [⟨⟨0, 0, 0⟩⟩]
        pInward.position 0.5 0.5 0.5) pInward).position.x| ≤ 10 ∧
      |(integrate scenarioCfg (handleResponsiveBehavior scenarioCfg [⟨⟨0, 0, 0⟩⟩]
        pInward.position 0.5 0.5 0.5) pInward).position.y| ≤ 10 ∧
      |(integrate scenarioCfg (handleResponsiveBehavior scenarioCfg [⟨⟨0, 0, 0⟩⟩]
        pInward.position 0.5 0.5 0.5) pInward).position.z| ≤ 10 := by
    rw [force_pInward]
    have hip : (integrate scenarioCfg ⟨-0.4, 0, 0⟩ pInward).position = ⟨3.66, 0, 0⟩ := by
      show (pInward.position.add ((pInward.velocity.add ⟨-0.4, 0, 0⟩).multiplyScalar
        scenarioCfg.viscosity)) = _
      ext <;> simp [pInward] <;> norm_num [show scenarioCfg.viscosity = 0.85 from rfl]
    rw [hip]
    norm_num [abs_le]
  exact ⟨hd0, hd5, C9_scenario_amended scenarioCfg [] 0 (1 / 60) 0.5 0.5 0.5 pInward
    rfl rfl rfl rfl (by norm_num [scenarioCfg]) hd0 hd5 hdom hnb⟩
